import Mathlib

/-!
Verification development for the embiggen link-prediction pipeline.

Shallow embedding of:
  * `load_embeddings`            (xn2v/utils/embedding_utils.py)
  * `LinkPrediction.create_edge_embeddings`, `prepare_edge_and_node_labels`,
    the classifier dispatch of `predict_links`, and the confusion-matrix
    metrics of `output_classifier_results` (embiggen/link_prediction.py)

Modelling conventions:
  * Python floats are modelled as `PyFloat`: exact rationals plus the IEEE
    non-finite values `nan`, `inf`, `ninf`.  Rounding is abstracted away
    (metric formulas are exact); division by zero follows numpy semantics
    (`0/0 = nan`, `x/0 = ±inf`) via `pydiv`.
  * Python exceptions and `sys.exit` are modelled by `Except PyError`.
  * Node-embedding vectors are Python lists of floats (that is what
    `load_embeddings` returns), modelled as `List ℚ`.  numpy elementwise
    binary operations on two such lists follow numpy broadcasting for
    1-D operands: equal lengths act elementwise, a length-1 operand is
    broadcast, anything else raises ValueError (`npBinop`).  Subtraction
    of two plain Python lists is not defined and raises TypeError, which
    is what the `weightedL1`/`weightedL2` branches of
    `create_edge_embeddings` actually do on the vectors produced by
    `load_embeddings`.
-/

namespace Embiggen

/-- Python exception outcomes relevant to the embedded code paths:
KeyError (dict lookup miss), TypeError (unsupported operand types /
empty input file), ValueError (float parse failure / broadcast failure /
`file_name is None`), IOError (missing file), and `sys.exit(1)`. -/
inductive PyError where
  | keyError
  | typeError
  | valueError
  | ioError
  | systemExit
deriving DecidableEq, Repr

/-- A Python float value: an exact rational, or one of the IEEE
non-finite values NaN, +inf, -inf.  Rounding of finite values is
abstracted away. -/
inductive PyFloat where
  | num (q : ℚ)
  | nan
  | inf
  | ninf
deriving DecidableEq, Repr

/-- numpy true division on scalars: division by zero yields NaN for a
zero numerator and a signed infinity otherwise (numpy emits only a
RuntimeWarning in these cases and returns the non-finite value). -/
def pydiv (a b : ℚ) : PyFloat :=
  if b = 0 then
    if a = 0 then .nan else if 0 < a then .inf else .ninf
  else .num (a / b)

/-- A 1-D numpy elementwise binary operation applied to two Python lists
(`np.multiply`, `np.add`): equal lengths act elementwise, a length-1
operand broadcasts, any other shape pair raises ValueError. -/
def npBinop (f : ℚ → ℚ → ℚ) (a b : List ℚ) : Except PyError (List ℚ) :=
  if a.length = b.length then .ok (List.zipWith f a b)
  else if a.length = 1 then .ok (b.map (f a.headI))
  else if b.length = 1 then .ok (a.map (fun x => f x b.headI))
  else .error .valueError

/-- The per-edge edge-embedding computation: the body of the `if/elif`
chain of `create_edge_embeddings` (link_prediction.py lines 411-433)
applied to the two endpoint vectors `emb1`, `emb2`.

The endpoint vectors are Python lists (see `load_embeddings`), so:
`hadamard` is `np.multiply(emb1, emb2)`; `average` is
`np.add(emb1, emb2) / 2`; `weightedL1` evaluates `emb1 - emb2` on two
plain lists, which raises TypeError before `abs` is applied; likewise
`weightedL2` raises TypeError before `np.power`; any other method name
logs an error and calls `sys.exit(1)`. -/
def edgeEmbedOne (meth : String) (emb1 emb2 : List ℚ) : Except PyError (List ℚ) :=
  if meth = "hadamard" then npBinop (· * ·) emb1 emb2
  else if meth = "average" then
    match npBinop (· + ·) emb1 emb2 with
    | .ok s => .ok (s.map (· / 2))
    | .error e => .error e
  else if meth = "weightedL1" then .error .typeError
  else if meth = "weightedL2" then .error .typeError
  else .error .systemExit

/-- Model of `LinkPrediction.create_edge_embeddings` (link_prediction.py
lines 391-440): iterate over the edge list in order; for each edge look up the
two endpoint vectors in the node-to-vector map (a miss raises KeyError),
compute the edge embedding by `edgeEmbedOne`, and accumulate the source,
destination and edge embedding lists in input order.  The first raised
exception aborts the whole call. -/
def create_edge_embeddings :
    List (String × String) → List (String × List ℚ) → String →
    Except PyError (List (List ℚ) × List (List ℚ) × List (List ℚ))
  | [], _, _ => .ok ([], [], [])
  | (n1, n2) :: rest, m, meth =>
    match m.lookup n1 with
    | none => .error .keyError
    | some emb1 =>
      match m.lookup n2 with
      | none => .error .keyError
      | some emb2 =>
        match edgeEmbedOne meth emb1 emb2 with
        | .error e => .error e
        | .ok eemb =>
          match create_edge_embeddings rest m meth with
          | .error e => .error e
          | .ok (s, d, es) => .ok (emb1 :: s, emb2 :: d, eemb :: es)

/-- The per-partition data assembled by `prepare_edge_and_node_labels`:
concatenated source/destination/edge embeddings and the label array. -/
structure PartitionData where
  src_embs : List (List ℚ)
  dst_embs : List (List ℚ)
  edge_embs : List (List ℚ)
  labels : List ℚ
deriving DecidableEq, Repr

/-- The block of `prepare_edge_and_node_labels` repeated for the train,
test and validation partitions (link_prediction.py lines 138-151,
154-168, 172-188): embed the positive edges, embed the negative edges,
concatenate positives-then-negatives, and build the label array as
`np.ones(len(pos_edge_embs))` followed by `np.zeros(len(neg_edge_embs))`. -/
def assemblePartition (posE negE : List (String × String))
    (m : List (String × List ℚ)) (meth : String) :
    Except PyError PartitionData :=
  match create_edge_embeddings posE m meth with
  | .error e => .error e
  | .ok (ps, pd, pe) =>
    match create_edge_embeddings negE m meth with
    | .error e => .error e
    | .ok (ns, nd, ne) =>
      .ok ⟨ps ++ ns, pd ++ nd, pe ++ ne,
           List.replicate pe.length 1 ++ List.replicate ne.length 0⟩

/-- The state of a `LinkPrediction` instance relevant to
`prepare_edge_and_node_labels` and `predict_links`: the six edge lists,
the node-to-vector map loaded from the embedding file, the edge-embedding
method name, the classifier name, and the `use_valid` flag. -/
structure LPState where
  pos_train_edges : List (String × String)
  neg_train_edges : List (String × String)
  pos_test_edges : List (String × String)
  neg_test_edges : List (String × String)
  pos_valid_edges : List (String × String)
  neg_valid_edges : List (String × String)
  map_node_vector : List (String × List ℚ)
  edge_embedding_method : String
  classifier : String
  use_validation : Bool
deriving Repr

/-- Model of `LinkPrediction.prepare_edge_and_node_labels`
(link_prediction.py lines 115-199): assemble the train partition, then the test partition,
then (only when `use_validation`) the validation partition.  Each
partition uses `self.map_node_vector` and the configured
edge-embedding method; the first exception aborts the call. -/
def prepare_edge_and_node_labels (st : LPState) :
    Except PyError (PartitionData × PartitionData × Option PartitionData) :=
  match assemblePartition st.pos_train_edges st.neg_train_edges
      st.map_node_vector st.edge_embedding_method with
  | .error e => .error e
  | .ok train =>
    match assemblePartition st.pos_test_edges st.neg_test_edges
        st.map_node_vector st.edge_embedding_method with
    | .error e => .error e
    | .ok test =>
      if st.use_validation then
        match assemblePartition st.pos_valid_edges st.neg_valid_edges
            st.map_node_vector st.edge_embedding_method with
        | .error e => .error e
        | .ok valid => .ok (train, test, some valid)
      else .ok (train, test, none)

/-- The classifier objects `predict_links` can construct. -/
inductive EdgeClassifier where
  | logisticRegression
  | randomForest
  | mlp
  | ffnn
  | multiModalFFNN
  | calibratedLinearSVC
deriving DecidableEq, Repr

/-- The classifier dispatch at the top of `LinkPrediction.predict_links`
(link_prediction.py lines 214-228): the five recognized names build
their model; every other name (including "SVM") falls through to the
`else` branch, which logs "Using SVM (default) classifier" and builds
`CalibratedClassifierCV(svm.LinearSVC())` — no exception is raised. -/
def predict_links_classifier (name : String) : EdgeClassifier :=
  if name = "LR" then .logisticRegression
  else if name = "RF" then .randomForest
  else if name = "MLP" then .mlp
  else if name = "FFNN" then .ffnn
  else if name = "MultiModalFFNN" then .multiModalFFNN
  else .calibratedLinearSVC

/-- The workflow of a `LinkPrediction` run up to classifier
construction: `prepare_edge_and_node_labels` is called first, and
`predict_links` constructs the classifier only afterwards (its dispatch
is the first thing it does).  An exception during preparation therefore
aborts the run before any classifier object exists. -/
def runPipeline (st : LPState) :
    Except PyError ((PartitionData × PartitionData × Option PartitionData) × EdgeClassifier) :=
  match prepare_edge_and_node_labels st with
  | .error e => .error e
  | .ok prep => .ok (prep, predict_links_classifier st.classifier)

/-- Confusion matrix as laid out by `sklearn.metrics.confusion_matrix`
and indexed in `output_classifier_results`: `[0,0]` true negatives,
`[0,1]` false positives, `[1,0]` false negatives, `[1,1]` true
positives. -/
structure ConfMat where
  tn : ℕ
  fp : ℕ
  fn : ℕ
  tp : ℕ
deriving DecidableEq, Repr

/-- Model of `total = sum(sum(conf_matrix))` (link_prediction.py line 334). -/
def cm_total (c : ConfMat) : ℕ := c.tn + c.fp + c.fn + c.tp

/-- Model of `train_accuracy = (m[0,0] + m[1,1]) / total` (line 335).  The test
and validation blocks (lines 355, 374) compute the same expression (the
test block multiplies by `1.0`, which does not change the value). -/
def train_accuracy (c : ConfMat) : PyFloat :=
  pydiv ((c.tn : ℚ) + (c.tp : ℚ)) (cm_total c : ℚ)

/-- Model of `train_specificity = m[0,0] / (m[0,0] + m[0,1])` (line 336); same
expression in the validation (line 356) and test (line 375) blocks. -/
def train_specificity (c : ConfMat) : PyFloat :=
  pydiv (c.tn : ℚ) ((c.tn : ℚ) + (c.fp : ℚ))

/-- Model of `train_sensitivity = m[1,1] / (m[1,0] + m[1,1])` (line 337); same
expression in the validation (line 357) and test (line 376) blocks. -/
def train_sensitivity (c : ConfMat) : PyFloat :=
  pydiv (c.tp : ℚ) ((c.fn : ℚ) + (c.tp : ℚ))

/-- Model of `train_f1_score = 2*m[1,1] / (2*m[1,1] + m[0,1] + m[1,0])`
(lines 338-339); same expression in the validation and test blocks. -/
def train_f1_score (c : ConfMat) : PyFloat :=
  pydiv (2 * (c.tp : ℚ)) (2 * (c.tp : ℚ) + (c.fp : ℚ) + (c.fn : ℚ))

/-- A file-system view of the embedding file handed to
`load_embeddings`: the path may not exist, or the file has content,
given as its list of lines (newlines stripped; a zero-size file has no
lines). -/
inductive FileState where
  | absent
  | present (lines : List String)
deriving Repr

/-- Split a character list at every occurrence of `sep`, keeping empty
chunks, exactly like the Python `str.split(sep)` method with an explicit
separator (and like `String.splitOn`): `"a  b"` gives `a`, `""`, `b`,
and the empty string gives one empty chunk. -/
def splitOnChar (sep : Char) : List Char → List (List Char)
  | [] => [[]]
  | c :: rest =>
    let r := splitOnChar sep rest
    if c = sep then [] :: r
    else (c :: r.headI) :: r.tail

/-- The numeric value of a digit string (most significant first). -/
def digitsVal (cs : List Char) : ℕ :=
  cs.foldl (fun acc c => 10 * acc + (c.toNat - 48)) 0

/-- A nonempty all-digit string parsed to its value, like
`String.toNat?`. -/
def digitsVal? (cs : List Char) : Option ℕ :=
  if cs ≠ [] ∧ cs.all Char.isDigit then some (digitsVal cs) else none

/-- Model of the Python `float()` builtin on a plain decimal literal token:
optional sign, integer digits, optional fraction digits, with at least
one digit overall.  Exponent, `inf`/`nan` and underscore forms are not
used by the embedding-file format and are not modelled (they would
parse to floats in Python; no claim depends on them).  Any other token
raises ValueError. -/
def pyFloatOfChars? (cs : List Char) : Option ℚ :=
  let sgn : ℚ := if cs.headI = '-' then -1 else 1
  let body := if cs.headI = '-' ∨ cs.headI = '+' then cs.tail else cs
  match splitOnChar '.' body with
  | [ip] => (digitsVal? ip).map (fun n => sgn * n)
  | [ip, fp] =>
    if ip = [] ∧ fp = [] then none
    else
      match (if ip = [] then some 0 else digitsVal? ip),
            (if fp = [] then some 0 else digitsVal? fp) with
      | some n, some f => some (sgn * ((n : ℚ) + (f : ℚ) / (10 : ℚ) ^ fp.length))
      | _, _ => none
  | _ => none

/-- Model of the `float()` builtin on a string token. -/
def pyFloatOfString? (s : String) : Option ℚ := pyFloatOfChars? s.toList

/-- Model of `[float(i) for i in fields]`: parse every field, the first failure
raising ValueError (modelled as `none`). -/
def parseFields : List (List Char) → Option (List ℚ)
  | [] => some []
  | f :: rest =>
    match pyFloatOfChars? f, parseFields rest with
    | some q, some qs => some (q :: qs)
    | _, _ => none

/-- Model of `dict.update(\x7bk: v\x7d)` on a dict kept as an insertion-ordered
association list: an existing key keeps its position and gets the new
value; a new key is appended at the end. -/
def dictUpdate (d : List (String × List ℚ)) (k : String) (v : List ℚ) :
    List (String × List ℚ) :=
  if (d.lookup k).isSome then
    d.map (fun p => if p.1 = k then (k, v) else p)
  else d ++ [(k, v)]

/-- The line loop of `load_embeddings` (embedding_utils.py lines
111-116): split each line on a single space, parse every field after
the first with `float()` (a failure raises ValueError), and update the
dict with first-field ↦ vector. -/
def loadLines : List String → List (String × List ℚ) →
    Except PyError (List (String × List ℚ))
  | [], acc => .ok acc
  | line :: rest, acc =>
    let fields := splitOnChar ' ' line.toList
    match parseFields fields.tail with
    | none => .error .valueError
    | some vec => loadLines rest (dictUpdate acc (String.mk fields.headI) vec)

/-- Model of `load_embeddings` (embedding_utils.py lines 90-121): a `None`
file name raises ValueError; a non-existent path raises IOError; a
zero-size file raises TypeError; otherwise each line is split on a
single space, its first field becomes the key and the remaining fields,
parsed as floats, become the vector.  No dimensionality check of any
kind is performed across rows. -/
def load_embeddings (file : Option FileState) :
    Except PyError (List (String × List ℚ)) :=
  match file with
  | none => .error .valueError
  | some .absent => .error .ioError
  | some (.present lines) =>
    if lines.isEmpty then .error .typeError
    else loadLines lines []

/-- The Scenario A embedding store: `{"A": [1,0], "B": [0,1]}`. -/
def scenarioMap : List (String × List ℚ) := [("A", [1, 0]), ("B", [0, 1])]

/-- When `create_edge_embeddings` returns normally, the three returned
lists all have exactly one entry per input edge: nothing is ever
skipped. -/
theorem create_ok_length (l : List (String × String)) (m : List (String × List ℚ))
    (meth : String) :
    ∀ s d es, create_edge_embeddings l m meth = .ok (s, d, es) →
      s.length = l.length ∧ d.length = l.length ∧ es.length = l.length := by
  induction l with
  | nil =>
    intro s d es h
    simp only [create_edge_embeddings, Except.ok.injEq, Prod.mk.injEq] at h
    obtain ⟨rfl, rfl, rfl⟩ := h
    simp
  | cons e rest ih =>
    intro s d es h
    obtain ⟨n1, n2⟩ := e
    cases hl1 : List.lookup n1 m with
    | none => simp [create_edge_embeddings, hl1] at h
    | some emb1 =>
      cases hl2 : List.lookup n2 m with
      | none => simp [create_edge_embeddings, hl1, hl2] at h
      | some emb2 =>
        cases hee : edgeEmbedOne meth emb1 emb2 with
        | error e2 => simp [create_edge_embeddings, hl1, hl2, hee] at h
        | ok eemb =>
          cases hrec : create_edge_embeddings rest m meth with
          | error e2 => simp [create_edge_embeddings, hl1, hl2, hee, hrec] at h
          | ok t =>
            obtain ⟨s0, d0, es0⟩ := t
            simp only [create_edge_embeddings, hl1, hl2, hee, hrec,
              Except.ok.injEq, Prod.mk.injEq] at h
            obtain ⟨hs, hd, he⟩ := h
            obtain ⟨ls, ld, le⟩ := ih s0 d0 es0 hrec
            simp [← hs, ← hd, ← he, ls, ld, le]

/-- When `create_edge_embeddings` returns normally, every edge endpoint
was found in the node-to-vector map. -/
theorem create_ok_resolves (l : List (String × String)) (m : List (String × List ℚ))
    (meth : String) :
    ∀ t, create_edge_embeddings l m meth = .ok t →
      ∀ ed ∈ l, (m.lookup ed.1).isSome ∧ (m.lookup ed.2).isSome := by
  induction l with
  | nil => intro t _ ed hed; simp at hed
  | cons e rest ih =>
    intro t h ed hed
    obtain ⟨n1, n2⟩ := e
    cases hl1 : List.lookup n1 m with
    | none => simp [create_edge_embeddings, hl1] at h
    | some emb1 =>
      cases hl2 : List.lookup n2 m with
      | none => simp [create_edge_embeddings, hl1, hl2] at h
      | some emb2 =>
        cases hee : edgeEmbedOne meth emb1 emb2 with
        | error e2 => simp [create_edge_embeddings, hl1, hl2, hee] at h
        | ok eemb =>
          cases hrec : create_edge_embeddings rest m meth with
          | error e2 => simp [create_edge_embeddings, hl1, hl2, hee, hrec] at h
          | ok t0 =>
            rcases List.mem_cons.mp hed with hcase | hcase
            · subst hcase
              constructor
              · show (List.lookup n1 m).isSome = true
                rw [hl1]; rfl
              · show (List.lookup n2 m).isSome = true
                rw [hl2]; rfl
            · exact ih t0 hrec ed hcase

/-- Membership in a dict after `dictUpdate`: the entry was already
present, or it is the new key-value pair. -/
theorem dictUpdate_mem (d : List (String × List ℚ)) (k : String) (v : List ℚ)
    (p : String × List ℚ) (hp : p ∈ dictUpdate d k v) : p ∈ d ∨ p = (k, v) := by
  unfold dictUpdate at hp
  split at hp
  · rcases List.mem_map.mp hp with ⟨q, hq, hqe⟩
    by_cases hk : q.1 = k
    · right; simp only [hk, if_pos] at hqe; exact hqe.symm
    · left; simp only [hk, if_neg, not_false_iff] at hqe; exact hqe ▸ hq
  · rcases List.mem_append.mp hp with hcase | hcase
    · exact Or.inl hcase
    · right; simpa using hcase

/-- Every entry of a successful `loadLines` run comes from the initial
accumulator or from one of the processed lines, with the key being the
first space-separated field of that line and the value the floats parsed
from the remaining fields. -/
theorem loadLines_mem (ls : List String) :
    ∀ acc r, loadLines ls acc = .ok r →
      ∀ p ∈ r, p ∈ acc ∨ ∃ line ∈ ls,
        String.mk (splitOnChar ' ' line.toList).headI = p.1 ∧
        parseFields (splitOnChar ' ' line.toList).tail = some p.2 := by
  induction ls with
  | nil =>
    intro acc r h p hp
    simp only [loadLines, Except.ok.injEq] at h
    exact Or.inl (h ▸ hp)
  | cons line rest ih =>
    intro acc r h p hp
    cases hpf : parseFields (splitOnChar ' ' line.toList).tail with
    | none =>
      simp only [String.toList] at hpf
      simp [loadLines, String.toList, hpf] at h
    | some vec =>
      simp only [String.toList] at hpf
      simp only [loadLines, String.toList, hpf] at h
      rcases ih _ r h p hp with hacc | ⟨l0, hl0, hprop⟩
      · rcases dictUpdate_mem _ _ _ _ hacc with hold | hnew
        · exact Or.inl hold
        · refine Or.inr ⟨line, List.mem_cons_self _ _, ?_, ?_⟩
          · simp [hnew, String.toList]
          · simp [hnew, String.toList, hpf]
      · exact Or.inr ⟨l0, List.mem_cons_of_mem _ hl0, hprop⟩

/-- When some processed line has a non-first field that fails `float()`
parsing, the line loop raises ValueError: earlier lines either parse
(and the loop moves on) or fail first, so the loop never returns
normally and never raises anything but ValueError. -/
theorem loadLines_fail (ls : List String) :
    ∀ acc, (∃ line ∈ ls, parseFields (splitOnChar ' ' line.toList).tail = none) →
      loadLines ls acc = .error .valueError := by
  induction ls with
  | nil =>
    intro acc h
    obtain ⟨l0, hl0, _⟩ := h
    simp at hl0
  | cons line rest ih =>
    intro acc h
    cases hpf : parseFields (splitOnChar ' ' line.toList).tail with
    | none =>
      simp only [String.toList] at hpf
      simp [loadLines, String.toList, hpf]
    | some vec =>
      obtain ⟨l0, hl0, hfail⟩ := h
      rcases List.mem_cons.mp hl0 with rfl | hl0r
      · rw [hpf] at hfail
        exact absurd hfail (by simp)
      · simp only [String.toList] at hpf
        simp only [loadLines, String.toList, hpf]
        exact ih _ ⟨l0, hl0r, hfail⟩

/-- Claim C1 (code-bug evaluation): with the Scenario A store
`A ↦ [1,0]`, `B ↦ [0,1]` and the single edge `(A,B)`,
`create_edge_embeddings` yields edge vector `[0,0]` under `hadamard`
and `[0.5,0.5]` under `average`, as the claim states; but under
`weightedL1` and `weightedL2` it raises TypeError (Python evaluates
`emb1 - emb2` on two plain lists, since `load_embeddings` returns
lists) instead of producing the claimed `[1,1]`. -/
theorem claimC1 :
    create_edge_embeddings [("A", "B")] scenarioMap "hadamard" =
      .ok ([[1, 0]], [[0, 1]], [[0, 0]]) ∧
    create_edge_embeddings [("A", "B")] scenarioMap "average" =
      .ok ([[1, 0]], [[0, 1]], [[1/2, 1/2]]) ∧
    create_edge_embeddings [("A", "B")] scenarioMap "weightedL1" = .error .typeError ∧
    create_edge_embeddings [("A", "B")] scenarioMap "weightedL2" = .error .typeError := by
  refine ⟨?_, ?_, ?_, ?_⟩ <;>
    simp [create_edge_embeddings, scenarioMap, edgeEmbedOne, npBinop, List.lookup]

/-- Claim C4, counterexample: for the confusion matrix with
TN = 0, FP = 0, FN = 1, TP = 1 (a partition with zero negative
examples), the specificity computation returns the plain float NaN as
an ordinary value — numpy only emits a RuntimeWarning for `0/0` — so
the code does not surface the undefinedness via an error or an explicit
undefined marker, contradicting the claim that it never silently
returns a NaN. -/
theorem claimC4_counterexample :
    train_specificity ⟨0, 0, 1, 1⟩ = PyFloat.nan := by
  simp [train_specificity, pydiv]

/-- Claim C4, amended: for every partition with zero negative examples
(TN + FP = 0), the specificity computation divides zero by zero and
silently returns the float NaN (no exception, no explicit marker). -/
theorem claimC4 (c : ConfMat) (h : c.tn + c.fp = 0) :
    train_specificity c = PyFloat.nan := by
  have htn : c.tn = 0 := by omega
  have hfp : c.fp = 0 := by omega
  simp [train_specificity, pydiv, htn, hfp]

/-- Witness for C4 at the concrete confusion matrix TN=0 FP=0 FN=2 TP=3. -/
theorem claimC4_witness :
    (0 + 0 = 0) ∧ train_specificity ⟨0, 0, 2, 3⟩ = PyFloat.nan :=
  ⟨rfl, claimC4 ⟨0, 0, 2, 3⟩ rfl⟩

/-- Claim C8: every classifier name outside
LR / RF / MLP / FFNN / MultiModalFFNN — including the recognized name
"SVM" — makes `predict_links` fall through to the `else` branch, which
builds the calibrated linear SVC (`CalibratedClassifierCV` around
`svm.LinearSVC()`) and logs a fallback notice instead of raising. -/
theorem claimC8 (name : String)
    (h : name ∉ ["LR", "RF", "MLP", "FFNN", "MultiModalFFNN"]) :
    predict_links_classifier name = .calibratedLinearSVC := by
  simp only [List.mem_cons, List.mem_singleton, not_or] at h
  obtain ⟨h1, h2, h3, h4, h5⟩ := h
  simp [predict_links_classifier, h1, h2, h3, h4, h5]

/-- Witness for C8 at the name "SVM". -/
theorem claimC8_witness :
    "SVM" ∉ ["LR", "RF", "MLP", "FFNN", "MultiModalFFNN"] ∧
    predict_links_classifier "SVM" = EdgeClassifier.calibratedLinearSVC :=
  ⟨by simp, claimC8 "SVM" (by simp)⟩

/-- Claim C10: on an empty edge list `create_edge_embeddings` returns
three empty arrays for every method name, recognized or not (the
method check sits inside the per-edge loop, which never runs), and a
whole run whose six edge lists are all empty completes preparation and
reaches classifier construction even with an invalid method name. -/
theorem claimC10 (meth cls : String) (m : List (String × List ℚ)) :
    create_edge_embeddings [] m meth = .ok ([], [], []) ∧
    runPipeline ⟨[], [], [], [], [], [], m, meth, cls, true⟩ =
      .ok ((⟨[], [], [], []⟩, ⟨[], [], [], []⟩, some ⟨[], [], [], []⟩),
        predict_links_classifier cls) :=
  ⟨rfl, rfl⟩

/-- Claim C5, counterexample: with operator name "cosine" (not one of
the four recognized operators) but all six edge lists empty, the run
does not terminate: preparation succeeds and the LR classifier is
constructed, because the unrecognized-operator check is only reached
inside the per-edge loop. -/
theorem claimC5_counterexample :
    runPipeline ⟨[], [], [], [], [], [], [], "cosine", "LR", true⟩ =
      .ok ((⟨[], [], [], []⟩, ⟨[], [], [], []⟩, some ⟨[], [], [], []⟩),
        EdgeClassifier.logisticRegression) := rfl

/-- Claim C5, amended: for every operator name outside the four
recognized ones, any run whose positive training edge list is nonempty
and whose first edge resolves in the embedding store calls
`sys.exit(1)` while embedding that first edge, so the run aborts before
any classifier is constructed. -/
theorem claimC5 (st : LPState)
    (hm : st.edge_embedding_method ∉ ["hadamard", "average", "weightedL1", "weightedL2"])
    (u v : String) (rest : List (String × String)) (e1 e2 : List ℚ)
    (hpos : st.pos_train_edges = (u, v) :: rest)
    (hu : List.lookup u st.map_node_vector = some e1)
    (hv : List.lookup v st.map_node_vector = some e2) :
    runPipeline st = .error .systemExit := by
  simp only [List.mem_cons, List.not_mem_nil, or_false, not_or] at hm
  obtain ⟨h1, h2, h3, h4⟩ := hm
  have hee : edgeEmbedOne st.edge_embedding_method e1 e2 = .error .systemExit := by
    rw [edgeEmbedOne, if_neg h1, if_neg h2, if_neg h3, if_neg h4]
  have hcr : create_edge_embeddings st.pos_train_edges st.map_node_vector
      st.edge_embedding_method = .error .systemExit := by
    rw [hpos]
    simp [create_edge_embeddings, hu, hv, hee]
  simp [runPipeline, prepare_edge_and_node_labels, assemblePartition, hcr]

/-- Witness for C5: operator "cosine", positive training edge `(A,B)`
resolvable in the Scenario A store, classifier name "LR": the run
aborts with exit code 1. -/
theorem claimC5_witness :
    ("cosine" ∉ ["hadamard", "average", "weightedL1", "weightedL2"]) ∧
    runPipeline ⟨[("A", "B")], [], [], [], [], [], scenarioMap, "cosine", "LR", false⟩ =
      .error .systemExit :=
  ⟨by simp,
    claimC5 ⟨[("A", "B")], [], [], [], [], [], scenarioMap, "cosine", "LR", false⟩
      (by simp) "A" "B" [] [1, 0] [0, 1] rfl (by simp [scenarioMap, List.lookup])
      (by simp [scenarioMap, List.lookup])⟩

/-- Claim C7: for each of the four recognized operator names and any two
endpoint vectors of equal length, the per-edge edge-embedding
computation gives the same result when source and destination are
swapped (for `hadamard` and `average` the same vector; `weightedL1` and
`weightedL2` raise the same TypeError either way). -/
theorem claimC7 (meth : String) (e1 e2 : List ℚ)
    (hm : meth ∈ (["hadamard", "average", "weightedL1", "weightedL2"] : List String))
    (hlen : e1.length = e2.length) :
    edgeEmbedOne meth e1 e2 = edgeEmbedOne meth e2 e1 := by
  have hz1 : List.zipWith (fun x y => x * y) e1 e2 = List.zipWith (fun x y => x * y) e2 e1 :=
    List.zipWith_comm_of_comm _ mul_comm e1 e2
  have hz2 : List.zipWith (fun x y => x + y) e1 e2 = List.zipWith (fun x y => x + y) e2 e1 :=
    List.zipWith_comm_of_comm _ add_comm e1 e2
  have hm4 : meth = "hadamard" ∨ meth = "average" ∨ meth = "weightedL1" ∨
      meth = "weightedL2" := by simpa using hm
  rcases hm4 with rfl | rfl | rfl | rfl
  · have hnp : npBinop (fun x y => x * y) e1 e2 = npBinop (fun x y => x * y) e2 e1 := by
      rw [npBinop, npBinop, if_pos hlen, if_pos hlen.symm]
      exact congrArg _ hz1
    simp [edgeEmbedOne, hnp]
  · have hnp : npBinop (fun x y => x + y) e1 e2 = npBinop (fun x y => x + y) e2 e1 := by
      rw [npBinop, npBinop, if_pos hlen, if_pos hlen.symm]
      exact congrArg _ hz2
    simp [edgeEmbedOne, hnp]
  · rfl
  · rfl

/-- Witness for C7 with the `hadamard` operator on `[1,0]` and `[0,1]`. -/
theorem claimC7_witness :
    ("hadamard" ∈ (["hadamard", "average", "weightedL1", "weightedL2"] : List String) ∧
      ([(1:ℚ), 0]).length = ([(0:ℚ), 1]).length) ∧
    edgeEmbedOne "hadamard" [1, 0] [0, 1] = edgeEmbedOne "hadamard" [0, 1] [1, 0] :=
  ⟨⟨by simp, by simp⟩, claimC7 "hadamard" [1, 0] [0, 1] (by simp) (by simp)⟩

/-- Claim C6: an edge list containing an edge with an endpoint missing
from the embedding store makes `create_edge_embeddings` abort with an
error (KeyError at the point of the failed lookup, as the second
conjunct shows for a missing first endpoint); it never silently skips
an edge, so a normal return always carries exactly one row per input
edge. -/
theorem claimC6 (l : List (String × String)) (m : List (String × List ℚ)) (meth : String)
    (h : ∃ ed ∈ l, List.lookup ed.1 m = none ∨ List.lookup ed.2 m = none) :
    (∃ err, create_edge_embeddings l m meth = .error err) ∧
    (∀ u v rest, l = (u, v) :: rest → List.lookup u m = none →
      create_edge_embeddings l m meth = .error .keyError) ∧
    (∀ s d es, create_edge_embeddings l m meth = .ok (s, d, es) →
      s.length = l.length ∧ d.length = l.length ∧ es.length = l.length) := by
  refine ⟨?_, ?_, ?_⟩
  · cases hr : create_edge_embeddings l m meth with
    | error err => exact ⟨err, rfl⟩
    | ok t =>
      obtain ⟨ed, hed, hbad⟩ := h
      obtain ⟨hs1, hs2⟩ := create_ok_resolves l m meth t hr ed hed
      rcases hbad with hb | hb
      · rw [hb] at hs1; simp at hs1
      · rw [hb] at hs2; simp at hs2
  · intro u v rest hl hu
    subst hl
    simp [create_edge_embeddings, hu]
  · intro s d es hok
    exact create_ok_length l m meth s d es hok

/-- Witness for C6: edge `(A,C)` with `C` absent from the Scenario A
store under `hadamard`. -/
theorem claimC6_witness :
    (∃ ed ∈ ([("A", "C")] : List (String × String)),
      List.lookup ed.1 scenarioMap = none ∨ List.lookup ed.2 scenarioMap = none) ∧
    (∃ err, create_edge_embeddings [("A", "C")] scenarioMap "hadamard" = .error err) :=
  ⟨⟨("A", "C"), by simp, Or.inr (by simp [scenarioMap, List.lookup])⟩,
   (claimC6 [("A", "C")] scenarioMap "hadamard"
     ⟨("A", "C"), by simp, Or.inr (by simp [scenarioMap, List.lookup])⟩).1⟩

/-- Claim C2: whenever a partition is assembled successfully from `p`
positive and `n` negative edges, its label array has length `p + n`,
begins with exactly `p` ones followed by exactly `n` zeros, and the
feature arrays are the concatenations of the positive-edge arrays
followed by the negative-edge arrays, so labels align index-for-index
with features. -/
theorem claimC2 (posE negE : List (String × String)) (m : List (String × List ℚ))
    (meth : String) (P : PartitionData)
    (h : assemblePartition posE negE m meth = .ok P) :
    P.labels.length = posE.length + negE.length ∧
    P.labels.take posE.length = List.replicate posE.length (1 : ℚ) ∧
    P.labels.drop posE.length = List.replicate negE.length (0 : ℚ) ∧
    ∃ ps pd pe ns nd ne,
      create_edge_embeddings posE m meth = .ok (ps, pd, pe) ∧
      create_edge_embeddings negE m meth = .ok (ns, nd, ne) ∧
      P.src_embs = ps ++ ns ∧ P.dst_embs = pd ++ nd ∧ P.edge_embs = pe ++ ne := by
  cases hp : create_edge_embeddings posE m meth with
  | error e => simp [assemblePartition, hp] at h
  | ok tp =>
    obtain ⟨ps, pd, pe⟩ := tp
    cases hn : create_edge_embeddings negE m meth with
    | error e => simp [assemblePartition, hp, hn] at h
    | ok tn =>
      obtain ⟨ns, nd, ne⟩ := tn
      simp only [assemblePartition, hp, hn] at h
      obtain ⟨lps, lpd, lpe⟩ := create_ok_length posE m meth ps pd pe hp
      obtain ⟨lns, lnd, lne⟩ := create_ok_length negE m meth ns nd ne hn
      have hP : (⟨ps ++ ns, pd ++ nd, pe ++ ne,
          List.replicate pe.length 1 ++ List.replicate ne.length 0⟩ : PartitionData) = P :=
        Except.ok.inj h
      subst hP
      refine ⟨?_, ?_, ?_, ?_⟩
      · simp [lpe, lne]
      · show (List.replicate pe.length (1:ℚ) ++
            List.replicate ne.length (0:ℚ)).take posE.length = _
        rw [← lpe]
        exact List.take_left' (by simp)
      · show (List.replicate pe.length (1:ℚ) ++
            List.replicate ne.length (0:ℚ)).drop posE.length = _
        rw [← lpe, ← lne]
        exact List.drop_left' (by simp)
      · exact ⟨ps, pd, pe, ns, nd, ne, rfl, rfl, rfl, rfl, rfl⟩

/-- Witness for C2: Scenario A store, one positive edge `(A,B)` and one
negative edge `(A,A)` under `hadamard`. -/
theorem claimC2_witness :
    assemblePartition [("A", "B")] [("A", "A")] scenarioMap "hadamard" =
      .ok ⟨[[1, 0], [1, 0]], [[0, 1], [1, 0]], [[0, 0], [1, 0]], [1, 0]⟩ ∧
    ([(1:ℚ), 0]).length = 1 + 1 ∧
    ([(1:ℚ), 0]).take 1 = List.replicate 1 (1:ℚ) ∧
    ([(1:ℚ), 0]).drop 1 = List.replicate 1 (0:ℚ) := by
  have hass : assemblePartition [("A", "B")] [("A", "A")] scenarioMap "hadamard" =
      .ok ⟨[[1, 0], [1, 0]], [[0, 1], [1, 0]], [[0, 0], [1, 0]], [1, 0]⟩ := by
    simp [assemblePartition, create_edge_embeddings, scenarioMap, edgeEmbedOne,
      npBinop, List.lookup]
  have hc := claimC2 [("A", "B")] [("A", "A")] scenarioMap "hadamard" _ hass
  exact ⟨hass, hc.1, hc.2.1, hc.2.2.1⟩

/-- Claim C3: when the confusion matrix has TN+FP > 0 and TP+FN > 0,
the four reported metrics equal the claimed closed forms — accuracy
(TN+TP)/total, specificity TN/(TN+FP), sensitivity TP/(TP+FN) and
F1 2TP/(2TP+FP+FN) — and each is a finite value in the interval [0,1]. -/
theorem claimC3 (c : ConfMat) (h1 : 0 < c.tn + c.fp) (h2 : 0 < c.tp + c.fn) :
    train_accuracy c = .num (((c.tn : ℚ) + c.tp) / ((c.tn : ℚ) + c.fp + c.fn + c.tp)) ∧
    train_specificity c = .num ((c.tn : ℚ) / ((c.tn : ℚ) + c.fp)) ∧
    train_sensitivity c = .num ((c.tp : ℚ) / ((c.tp : ℚ) + c.fn)) ∧
    train_f1_score c = .num (2 * (c.tp : ℚ) / (2 * (c.tp : ℚ) + c.fp + c.fn)) ∧
    (∃ q, train_accuracy c = .num q ∧ 0 ≤ q ∧ q ≤ 1) ∧
    (∃ q, train_specificity c = .num q ∧ 0 ≤ q ∧ q ≤ 1) ∧
    (∃ q, train_sensitivity c = .num q ∧ 0 ≤ q ∧ q ≤ 1) ∧
    (∃ q, train_f1_score c = .num q ∧ 0 ≤ q ∧ q ≤ 1) := by
  have hpd : ∀ a b : ℚ, b ≠ 0 → pydiv a b = .num (a / b) := by
    intro a b hb; simp [pydiv, hb]
  have c0tn : (0:ℚ) ≤ (c.tn : ℚ) := Nat.cast_nonneg _
  have c0fp : (0:ℚ) ≤ (c.fp : ℚ) := Nat.cast_nonneg _
  have c0fn : (0:ℚ) ≤ (c.fn : ℚ) := Nat.cast_nonneg _
  have c0tp : (0:ℚ) ≤ (c.tp : ℚ) := Nat.cast_nonneg _
  have d1 : (0:ℚ) < (c.tn : ℚ) + c.fp := by exact_mod_cast h1
  have d2 : (0:ℚ) < (c.tp : ℚ) + c.fn := by exact_mod_cast h2
  have dt : (0:ℚ) < (cm_total c : ℚ) := by
    push_cast [cm_total]; linarith
  have df : (0:ℚ) < 2 * (c.tp : ℚ) + c.fp + c.fn := by linarith
  have dsens : (0:ℚ) < (c.fn : ℚ) + c.tp := by linarith
  have ha : train_accuracy c =
      .num (((c.tn : ℚ) + c.tp) / ((c.tn : ℚ) + c.fp + c.fn + c.tp)) := by
    rw [train_accuracy, hpd _ _ (ne_of_gt dt)]
    congr 1
    push_cast [cm_total]
    ring
  have hs : train_specificity c = .num ((c.tn : ℚ) / ((c.tn : ℚ) + c.fp)) := by
    rw [train_specificity, hpd _ _ (ne_of_gt d1)]
  have hn : train_sensitivity c = .num ((c.tp : ℚ) / ((c.tp : ℚ) + c.fn)) := by
    rw [train_sensitivity, hpd _ _ (ne_of_gt dsens)]
    congr 1
    ring
  have hf : train_f1_score c =
      .num (2 * (c.tp : ℚ) / (2 * (c.tp : ℚ) + c.fp + c.fn)) := by
    rw [train_f1_score, hpd _ _ (ne_of_gt df)]
  have dta : (0:ℚ) < (c.tn : ℚ) + c.fp + c.fn + c.tp := by linarith
  refine ⟨ha, hs, hn, hf, ⟨_, ha, ?_, ?_⟩, ⟨_, hs, ?_, ?_⟩, ⟨_, hn, ?_, ?_⟩, ⟨_, hf, ?_, ?_⟩⟩
  · exact div_nonneg (by linarith) (le_of_lt dta)
  · rw [div_le_one dta]; linarith
  · exact div_nonneg c0tn (le_of_lt d1)
  · rw [div_le_one d1]; linarith
  · exact div_nonneg c0tp (le_of_lt d2)
  · rw [div_le_one d2]; linarith
  · exact div_nonneg (by linarith) (le_of_lt df)
  · rw [div_le_one df]; linarith

/-- Witness for C3 at the confusion matrix TN=1 FP=1 FN=1 TP=1. -/
theorem claimC3_witness :
    (0 < 1 + 1) ∧
    (∃ q, train_accuracy ⟨1, 1, 1, 1⟩ = PyFloat.num q ∧ 0 ≤ q ∧ q ≤ 1) :=
  ⟨by norm_num, (claimC3 ⟨1, 1, 1, 1⟩ (by norm_num) (by norm_num)).2.2.2.2.1⟩

/-- Claim C9, counterexample: a file whose two rows have different
dimensionalities (2 and 3) loads successfully — `load_embeddings`
performs no consistency check — contradicting the claim that such a
file is a fatal error. -/
theorem claimC9_counterexample :
    load_embeddings (some (.present ["A 1 0", "B 1 2 3"])) =
      .ok [("A", [1, 0]), ("B", [1, 2, 3])] ∧
    ([(1:ℚ), 0]).length ≠ ([(1:ℚ), 2, 3]).length := by
  constructor
  · simp [load_embeddings, loadLines, dictUpdate, splitOnChar, parseFields,
      pyFloatOfChars?, digitsVal?, digitsVal]
  · simp

/-- Claim C9, amended: `load_embeddings` fails with a fatal error when
the path is `None` (ValueError), the file does not exist (IOError), the
file is empty (TypeError), or some non-first field of a line fails to
parse as a float (ValueError); row dimensionality is never checked; on
success every returned entry maps the first space-separated field of
some input line to the floats parsed from the remaining fields of that
line. -/
theorem claimC9 :
    load_embeddings none = .error .valueError ∧
    load_embeddings (some .absent) = .error .ioError ∧
    load_embeddings (some (.present [])) = .error .typeError ∧
    (∀ lines, (∃ line ∈ lines, parseFields (splitOnChar ' ' line.toList).tail = none) →
      load_embeddings (some (.present lines)) = .error .valueError) ∧
    (∀ lines r, load_embeddings (some (.present lines)) = .ok r →
      ∀ p ∈ r, ∃ line ∈ lines,
        String.mk (splitOnChar ' ' line.toList).headI = p.1 ∧
        parseFields (splitOnChar ' ' line.toList).tail = some p.2) := by
  refine ⟨rfl, rfl, rfl, ?_, ?_⟩
  · intro lines h
    cases lines with
    | nil =>
      obtain ⟨l0, hl0, _⟩ := h
      simp at hl0
    | cons a as => exact loadLines_fail (a :: as) [] h
  · intro lines r h p hp
    have hll : loadLines lines [] = .ok r := by
      cases lines with
      | nil => simp [load_embeddings] at h
      | cons a as => simpa [load_embeddings] using h
    rcases loadLines_mem lines [] r hll p hp with habs | hgood
    · simp at habs
    · exact hgood

/-- Witness for C9: the single-line file `A 1 0` loads to the mapping
`A ↦ [1,0]`, whose entry indeed comes from that line, while the file
`A x` (the field `x` is not a float literal) fails with ValueError. -/
theorem claimC9_witness :
    load_embeddings (some (.present ["A 1 0"])) = .ok [("A", [1, 0])] ∧
    (∃ line ∈ (["A 1 0"] : List String),
      String.mk (splitOnChar ' ' line.toList).headI = "A" ∧
      parseFields (splitOnChar ' ' line.toList).tail = some [(1:ℚ), 0]) ∧
    load_embeddings (some (.present ["A x"])) = .error .valueError := by
  have hld : load_embeddings (some (.present ["A 1 0"])) = .ok [("A", [(1:ℚ), 0])] := by
    simp [load_embeddings, loadLines, dictUpdate, splitOnChar, parseFields,
      pyFloatOfChars?, digitsVal?, digitsVal]
  have hbad : parseFields (splitOnChar ' ' ("A x".toList)).tail = none := by
    simp [splitOnChar, parseFields, pyFloatOfChars?, digitsVal?, digitsVal]
  exact ⟨hld,
    claimC9.2.2.2.2 ["A 1 0"] [("A", [1, 0])] hld ("A", [1, 0]) (by simp),
    claimC9.2.2.2.1 ["A x"] ⟨"A x", by simp, hbad⟩⟩

end Embiggen
